import Mathlib

/-!
Verification of the UAE National Day video-job API (`UAE_anthem/api/main.py`).

The development shallowly embeds the job registry, the background pipeline
(`_run_pipeline`), and the HTTP handlers (`create_job`, `job_status`,
`job_qr`, `get_questions`, `healthz`) as executable Lean definitions.
External collaborators (the two generative-media calls, S3 presigning,
network fetches) are supplied by an oracle, mirroring the spec's statement
that they are opaque external collaborators.  Registry and filesystem
effects are represented by explicit event traces so that locking behaviour
and cleanup behaviour can be stated.
-/

namespace UAEAnthem

/-- Job status values stored in the registry, plus the `queued` placeholder
that `job_status` reports for an unknown id (main.py line 315). -/
inductive Status where
  | queued
  | image
  | video
  | completed
  | failed
deriving DecidableEq, Repr

/-- One job record, mirroring the dict stored in `JOBS` (main.py 171-179,
241-246, 250-258).  Timestamps are abstract ticks. -/
structure JobRec where
  status : Status
  videoUrl : Option String
  imageUrl : Option String
  videoPath : Option String
  error : Option String
  phone : Option String
  startedAt : Option Nat
  completedAt : Option Nat
  failedAt : Option Nat
deriving DecidableEq, Repr

/-- The in-memory registry `JOBS`: an association list with dict-assignment
semantics (insert or replace). -/
abbrev Registry := List (String × JobRec)

/-- Python `JOBS.get(job_id)`. -/
def regGet : Registry → String → Option JobRec
  | [], _ => none
  | (k, v) :: rest, id => if k = id then some v else regGet rest id

/-- Python `JOBS[job_id] = rec`: replace an existing binding or append. -/
def regSet : Registry → String → JobRec → Registry
  | [], id, rec => [(id, rec)]
  | (k, v) :: rest, id, rec =>
      if k = id then (id, rec) :: rest else (k, v) :: regSet rest id rec

/-- The record assigned wholesale at pipeline start (main.py 171-179):
status `image`, both URLs `None`, `started_at` set. -/
def imageRecord (phone : Option String) (t : Nat) : JobRec :=
  { status := Status.image, videoUrl := none, imageUrl := none,
    videoPath := none, error := none, phone := phone,
    startedAt := some t, completedAt := none, failedAt := none }

/-- The record assigned wholesale by the `except` handler (main.py 250-258):
a fresh dict with `failed_at` but no `started_at` or `completed_at`. -/
def failedRecord (phone : Option String) (msg : String) (t : Nat) : JobRec :=
  { status := Status.failed, videoUrl := none, imageUrl := none,
    videoPath := none, error := some msg, phone := phone,
    startedAt := none, completedAt := none, failedAt := some t }

/-- The three registry-write shapes appearing in `_run_pipeline`: whole-dict
assignment (lines 171, 250), the single status-field mutation (line 187),
and the completion block mutating four fields under one lock (241-246). -/
inductive RegWrite where
  | assign (rec : JobRec)
  | setStatus (s : Status)
  | complete (videoUrl imageUrl : String) (videoPath : Option String) (t : Nat)
deriving DecidableEq, Repr

/-- Field-by-field effect of the completion block (main.py 241-246). -/
def JobRec.completeWith (j : JobRec) (vu iu : String) (vp : Option String)
    (t : Nat) : JobRec :=
  { j with status := Status.completed, videoUrl := some vu,
           imageUrl := some iu, videoPath := vp, completedAt := some t }

/-- Apply one registry write for job `id`.  Field mutations on an absent key
would raise `KeyError` in Python; the pipeline always registers the job
first, so that branch is unreachable and modelled as a no-op. -/
def applyWrite (r : Registry) (id : String) : RegWrite → Registry
  | RegWrite.assign rec => regSet r id rec
  | RegWrite.setStatus s =>
      match regGet r id with
      | some j => regSet r id { j with status := s }
      | none => r
  | RegWrite.complete vu iu vp t =>
      match regGet r id with
      | some j => regSet r id (j.completeWith vu iu vp t)
      | none => r

/-- Result of one external call: a returned value, or a raised exception
already formatted as Python's f-string of type name and message. -/
inductive CallResult (α : Type) where
  | ok (v : α)
  | raise (msg : String)
deriving DecidableEq, Repr

/-- Outcomes of the external collaborators used by one pipeline run:
`nano_banana_edit`, `wans2v`, the storage step (fetches plus uploads or
local saves, collapsed since no claim inspects its internals), the S3
presigner, and the wall-clock ticks read by `time.time()`. -/
structure Oracle where
  imageGen : CallResult String
  videoGen : CallResult String
  storeStep : CallResult Unit
  presign : String → String
  startTime : Nat
  completeTime : Nat
  failTime : Nat

/-- Process configuration (main.py 34-47), with the Python-side
`strip` / `rstrip` normalisations already applied as in the source:
`s3Pre` is S3_PREFIX after strip of slashes, `s3PublicDomain` and
`publicBaseUrl` after rstrip of the trailing slash. -/
structure Config where
  useS3 : Bool
  s3Pre : String
  s3PublicDomain : String
  publicBaseUrl : String
  rootDir : String
  uploadDir : String
  maxUploadSizeMB : Nat

/-- MAX_UPLOAD_SIZE = MAX_UPLOAD_SIZE_MB * 1024 * 1024 (main.py 47). -/
def MAX_UPLOAD_SIZE (cfg : Config) : Nat := cfg.maxUploadSizeMB * 1024 * 1024

/-- Python `s.strip("/")`. -/
def stripSlash (s : String) : String :=
  let l := s.toList.dropWhile (fun c => c == '/')
  String.mk ((l.reverse.dropWhile (fun c => c == '/')).reverse)

/-- Python `s.replace("..", "")`: left-to-right non-overlapping removal. -/
def replaceDotDot : List Char → List Char
  | [] => []
  | '.' :: '.' :: rest => replaceDotDot rest
  | c :: rest => c :: replaceDotDot rest

/-- The per-part sanitisation in `_s3_key` (main.py 79). -/
def sanitizePart (p : String) : String :=
  String.mk (replaceDotDot (stripSlash p).toList)

/-- The `_s3_key` helper (main.py 77-80). -/
def s3Key (pre : String) (parts : List String) : String :=
  let safe := (parts.filter (fun p => p != "")).map sanitizePart
  if pre = "" then String.intercalate "/" safe
  else String.intercalate "/" (pre :: safe)

/-- The `_s3_url_for_key` helper (main.py 101-112): CDN-domain URL when a
public domain is configured, otherwise a presigned URL from the oracle. -/
def s3UrlForKey (cfg : Config) (o : Oracle) (key : String) : String :=
  if cfg.s3PublicDomain = "" then o.presign key
  else cfg.s3PublicDomain ++ "/" ++ key

/-- Final video URL, image URL and local video path computed by the storage
step (main.py 195-238).  When PUBLIC_BASE_URL is empty the Python code
returns the relative URL unchanged, which equals prepending the empty
string, so both branches are one concatenation here. -/
def finalUrls (cfg : Config) (o : Oracle) (jobId : String) :
    String × String × Option String :=
  if cfg.useS3 then
    let imageKey := s3Key cfg.s3Pre ["images", jobId ++ ".jpeg"]
    let videoKey := s3Key cfg.s3Pre ["videos", jobId ++ ".mp4"]
    (s3UrlForKey cfg o videoKey, s3UrlForKey cfg o imageKey, none)
  else
    let localVideoPath := cfg.rootDir ++ "/result/videos/" ++ jobId ++ ".mp4"
    (cfg.publicBaseUrl ++ "/media/videos/" ++ jobId ++ ".mp4",
     cfg.publicBaseUrl ++ "/media/images/" ++ jobId ++ ".jpeg",
     some localVideoPath)

/-- The sequence of registry writes performed by `_run_pipeline`
(main.py 168-258) for a given oracle.  A falsy (empty) generation result
raises `RuntimeError(...)`, formatted by the handler as shown; a raised
exception carries its own formatted message. -/
def pipelineWrites (cfg : Config) (o : Oracle) (jobId : String)
    (phone : Option String) : List RegWrite :=
  let reg := RegWrite.assign (imageRecord phone o.startTime)
  match o.imageGen with
  | CallResult.raise msg =>
      [reg, RegWrite.assign (failedRecord phone msg o.failTime)]
  | CallResult.ok imgUrl =>
    if imgUrl = "" then
      [reg, RegWrite.assign
        (failedRecord phone "RuntimeError: Image generation failed" o.failTime)]
    else
      let toVideo := RegWrite.setStatus Status.video
      match o.videoGen with
      | CallResult.raise msg =>
          [reg, toVideo, RegWrite.assign (failedRecord phone msg o.failTime)]
      | CallResult.ok vidUrl =>
        if vidUrl = "" then
          [reg, toVideo, RegWrite.assign
            (failedRecord phone "RuntimeError: Video generation failed" o.failTime)]
        else
          match o.storeStep with
          | CallResult.raise msg =>
              [reg, toVideo, RegWrite.assign (failedRecord phone msg o.failTime)]
          | CallResult.ok _ =>
              let u := finalUrls cfg o jobId
              [reg, toVideo, RegWrite.complete u.1 u.2.1 u.2.2 o.completeTime]

/-- Atomic events of the embedded system: lock acquire and release, registry
reads and writes, filesystem create and remove attempts, closing the upload
stream, and spawning a pipeline thread. -/
inductive Ev where
  | acq
  | rel
  | regRead
  | regWrite (id : String) (w : RegWrite)
  | fsCreate (path : String)
  | fsRemove (path : String)
  | close
  | spawn (id : String)
deriving DecidableEq, Repr

/-- Each registry write in `_run_pipeline` sits inside its own
`with JOBS_LOCK:` block. -/
def writeEvents (id : String) : List RegWrite → List Ev
  | [] => []
  | w :: ws => Ev.acq :: Ev.regWrite id w :: Ev.rel :: writeEvents id ws

/-- The `finally` block (main.py 259-265): attempt removal only when
`os.path.exists(img_path)` holds. -/
def cleanupEvents (imgPath : String) (fs : List String) : List Ev :=
  if imgPath ∈ fs then [Ev.fsRemove imgPath] else []

/-- Full event trace of one `_run_pipeline` run: the locked registry writes
followed by the scoped cleanup of the temporary upload. -/
def pipelineTrace (cfg : Config) (o : Oracle) (jobId : String)
    (phone : Option String) (imgPath : String) (fs : List String) : List Ev :=
  writeEvents jobId (pipelineWrites cfg o jobId phone) ++ cleanupEvents imgPath fs

/-- Registry obtained after the first `k` pipeline writes for `jobId` have
been applied: the states a concurrent poller can observe. -/
def registryAfter (r0 : Registry) (jobId : String) (ws : List RegWrite)
    (k : Nat) : Registry :=
  (ws.take k).foldl (fun r w => applyWrite r jobId w) r0

/-- System step over registry and filesystem; `rmFails` makes every
`os.remove` raise (the raise is swallowed, so only the filesystem ignores
the removal). -/
def sysStep (rmFails : Bool) (st : Registry × List String) : Ev → Registry × List String
  | Ev.regWrite id w => (applyWrite st.1 id w, st.2)
  | Ev.fsCreate p => (st.1, if p ∈ st.2 then st.2 else p :: st.2)
  | Ev.fsRemove p => (st.1, if rmFails then st.2 else st.2.filter (fun q => q != p))
  | _ => st

/-- Run a trace of events over a registry plus filesystem. -/
def runEvents (rmFails : Bool) (st : Registry × List String) (evs : List Ev) :
    Registry × List String :=
  evs.foldl (sysStep rmFails) st

/-- Holds when every registry access in the trace happens at positive lock
depth, starting from depth `d`. -/
def accessesLocked : Nat → List Ev → Bool
  | _, [] => true
  | d, Ev.acq :: rest => accessesLocked (d + 1) rest
  | d, Ev.rel :: rest => accessesLocked (d - 1) rest
  | d, Ev.regRead :: rest => decide (0 < d) && accessesLocked d rest
  | d, Ev.regWrite _ _ :: rest => decide (0 < d) && accessesLocked d rest
  | d, _ :: rest => accessesLocked d rest

/-- Response of `GET /api/jobs/{job_id}` (main.py 309-324).  The three
completed-only fields are `none` when the corresponding JSON key is absent. -/
structure StatusResponse where
  status : Status
  error : Option String
  videoUrl : Option String
  imageUrl : Option String
  qrUrl : Option String
deriving DecidableEq, Repr

/-- The `job_status` handler (main.py 309-324): unknown ids get the
`queued` placeholder; completed jobs additionally expose both media URLs
and the QR link. -/
def job_status (r : Registry) (jobId : String) : StatusResponse :=
  match regGet r jobId with
  | none =>
      { status := Status.queued, error := none, videoUrl := none,
        imageUrl := none, qrUrl := none }
  | some j =>
      if j.status = Status.completed then
        { status := j.status, error := j.error, videoUrl := j.videoUrl,
          imageUrl := j.imageUrl,
          qrUrl := some ("/api/jobs/" ++ jobId ++ "/qr") }
      else
        { status := j.status, error := j.error, videoUrl := none,
          imageUrl := none, qrUrl := none }

/-- An HTTPException with status code and detail string. -/
structure HttpErr where
  code : Nat
  detail : String
deriving DecidableEq, Repr

/-- Modelled from the spec: `generate_qr_code` (in `wave.py`, not under
src/) renders a QR image whose payload is the given URL; the PNG returned
to the client is identified by that payload. -/
structure QrPng where
  payloadUrl : String
deriving DecidableEq, Repr

/-- Successful response of the QR endpoint: PNG body, media type and the
cache hint header. -/
structure QrResponse where
  png : QrPng
  mediaType : String
  cacheControl : String
deriving DecidableEq, Repr

/-- The `job_qr` handler (main.py 326-344).  The Python guard
`not job or job.get("status") != "completed" or not job.get("video_url")`
is unfolded into the nested cases below; `not job.get("video_url")` is
true for both a missing value and the empty string. -/
def job_qr (r : Registry) (jobId : String) : Except HttpErr QrResponse :=
  match regGet r jobId with
  | none => Except.error { code := 404, detail := "QR not available" }
  | some j =>
      if j.status = Status.completed then
        match j.videoUrl with
        | none => Except.error { code := 404, detail := "QR not available" }
        | some u =>
            if u = "" then
              Except.error { code := 404, detail := "QR not available" }
            else
              Except.ok { png := { payloadUrl := u }, mediaType := "image/png",
                          cacheControl := "public, max-age=3600" }
      else Except.error { code := 404, detail := "QR not available" }

/-- Modelled from the spec: a quiz question record as served by
`quiz.get_random_questions` (in `quiz.py`, not under src/): identifier,
question text, ordered options, and the correct-answer key. -/
structure Question where
  id : String
  question : String
  options : List String
  answer : String
deriving DecidableEq, Repr

/-- The client-visible projection built by the handler (main.py 350-353). -/
structure SanitizedQuestion where
  id : String
  question : String
  options : List String
deriving DecidableEq, Repr

/-- Body of the quiz-questions response (main.py 354). -/
structure QuestionsResponse where
  questions : List SanitizedQuestion
  key : List Question
deriving DecidableEq, Repr

/-- Sanitisation of one question (main.py 351-352). -/
def sanitizeQ (q : Question) : SanitizedQuestion :=
  { id := q.id, question := q.question, options := q.options }

/-- The `get_questions` handler (main.py 346-356), parametrised by the list
of questions the external selection returned: the response carries the
sanitised list as `questions` and the unsanitised list as `key`. -/
def get_questions (qs : List Question) : QuestionsResponse :=
  { questions := qs.map sanitizeQ, key := qs }

/-- Python `pathlib.Path(name).suffix` on the final path component: the
extension from the last dot, empty when the dot is leading or trailing. -/
def lastComponent (s : String) : String :=
  String.mk ((s.toList.reverse.takeWhile (fun c => c != '/')).reverse)

/-- The suffix rule of `pathlib`: `name[i:]` for the last dot index `i`
when `0 < i < len(name) - 1`, else empty. -/
def pySuffix (filename : String) : String :=
  let nm := (lastComponent filename).toList
  match nm.reverse.findIdx? (fun c => c == '.') with
  | none => ""
  | some j =>
      let i := nm.length - 1 - j
      if 0 < i ∧ i + 1 < nm.length then String.mk (nm.drop i) else ""

/-- The upload path computed by `create_job` (main.py 280-281):
`UPLOAD_DIR/{job_id}{ext}` with `ext = Path(filename).suffix or ".jpg"`. -/
def uploadPathOf (cfg : Config) (jobId : String) (filename : String) : String :=
  let sfx := pySuffix filename
  cfg.uploadDir ++ "/" ++ jobId ++ (if sfx = "" then ".jpg" else sfx)

/-- The streaming loop of `create_job` (main.py 284-295): reads chunks,
stops at an empty read, and fails as soon as the running total exceeds the
limit — returning `false` means the 413 path is taken mid-stream. -/
def streamOk (maxSize : Nat) : Nat → List Nat → Bool
  | _, [] => true
  | readSoFar, c :: rest =>
      if c = 0 then true
      else if maxSize < readSoFar + c then false
      else streamOk maxSize (readSoFar + c) rest

/-- Outcome value of the submit endpoint: the returned job id, or an
HTTPException code with detail. -/
inductive CreateResult where
  | ok (jobId : String)
  | err (code : Nat) (detail : String)
deriving DecidableEq, Repr

/-- Result and side-effect trace of one `create_job` invocation. -/
structure CreateOutcome where
  result : CreateResult
  events : List Ev
deriving DecidableEq, Repr

/-- The allowed category values (main.py 274). -/
def validAgeGroups : List String := ["Male", "Female", "Boy", "Girl"]

/-- The content-type allow-list (main.py 276). -/
def validContentTypes : List String := ["image/jpeg", "image/png"]

/-- The `create_job` handler (main.py 268-307).  Validation failures raise
before any effect; otherwise the upload file is created, the stream is
closed in the `finally`, and only on success is a pipeline thread spawned
and the job id returned.  The 413 path closes the stream but never removes
the partially written file. -/
def create_job (cfg : Config) (jobId : String) (ageGroup contentType filename : String)
    (chunks : List Nat) : CreateOutcome :=
  if ageGroup ∈ validAgeGroups then
    if contentType ∈ validContentTypes then
      let uploadPath := uploadPathOf cfg jobId filename
      if streamOk (MAX_UPLOAD_SIZE cfg) 0 chunks then
        { result := CreateResult.ok jobId,
          events := [Ev.fsCreate uploadPath, Ev.close, Ev.spawn jobId] }
      else
        { result := CreateResult.err 413
            ("File too large (max " ++ toString cfg.maxUploadSizeMB ++ "MB)"),
          events := [Ev.fsCreate uploadPath, Ev.close] }
    else
      { result := CreateResult.err 400 "Only JPEG/PNG images are accepted",
        events := [] }
  else
    { result := CreateResult.err 400 "Invalid age_group", events := [] }

/-- Registry-access trace of `job_status` (main.py 311-312): one read under
the lock. -/
def jobStatusTrace : List Ev := [Ev.acq, Ev.regRead, Ev.rel]

/-- Registry-access trace of `job_qr` (main.py 328-329): one read under the
lock. -/
def jobQrTrace : List Ev := [Ev.acq, Ev.regRead, Ev.rel]

/-- Registry-access trace of `healthz` (main.py 389): the `jobs_active`
count iterates `JOBS.values()` without acquiring `JOBS_LOCK`. -/
def healthzTrace : List Ev := [Ev.regRead]

/-- The `jobs_active` value computed by `healthz` (main.py 389). -/
def healthz_jobs_active (r : Registry) : Nat :=
  (r.filter (fun p => p.2.status == Status.image || p.2.status == Status.video)).length

/-- Registry-access traces of every endpoint and of the pipeline task, for
one choice of arguments. -/
def endpointTraces (cfg : Config) (o : Oracle) (jobId ageGroup contentType
    filename : String) (chunks : List Nat) (phone : Option String)
    (imgPath : String) (fs : List String) : List (List Ev) :=
  [(create_job cfg jobId ageGroup contentType filename chunks).events,
   jobStatusTrace, jobQrTrace, healthzTrace,
   pipelineTrace cfg o jobId phone imgPath fs]

/-- Status carried by one registry write. -/
def writeStatus : RegWrite → Status
  | RegWrite.assign rec => rec.status
  | RegWrite.setStatus s => s
  | RegWrite.complete _ _ _ _ => Status.completed

/-- The sequence of status values written to the registry by one pipeline
run, in order. -/
def statusSeq (cfg : Config) (o : Oracle) (jobId : String)
    (phone : Option String) : List Status :=
  (pipelineWrites cfg o jobId phone).map writeStatus

/-- Transitions of the per-job state machine (spec section 4.3). -/
def stepOk : Status → Status → Bool
  | Status.image, Status.video => true
  | Status.video, Status.completed => true
  | Status.image, Status.failed => true
  | Status.video, Status.failed => true
  | _, _ => false

/-- True for every status a pipeline ever writes (anything but the
`queued` placeholder). -/
def atLeastImage : Status → Bool
  | Status.queued => false
  | _ => true

/-- Whether this oracle makes the pipeline take the `except` path. -/
def oracleFails (o : Oracle) : Bool :=
  match o.imageGen with
  | CallResult.raise _ => true
  | CallResult.ok imgUrl =>
    if imgUrl = "" then true
    else
      match o.videoGen with
      | CallResult.raise _ => true
      | CallResult.ok vidUrl =>
        if vidUrl = "" then true
        else
          match o.storeStep with
          | CallResult.raise _ => true
          | CallResult.ok _ => false

/-- The error message recorded when the pipeline fails (empty when the
oracle does not fail, a case the failure theorems exclude). -/
def failMsg (o : Oracle) : String :=
  match o.imageGen with
  | CallResult.raise msg => msg
  | CallResult.ok imgUrl =>
    if imgUrl = "" then "RuntimeError: Image generation failed"
    else
      match o.videoGen with
      | CallResult.raise msg => msg
      | CallResult.ok vidUrl =>
        if vidUrl = "" then "RuntimeError: Video generation failed"
        else
          match o.storeStep with
          | CallResult.raise msg => msg
          | CallResult.ok _ => ""

/-! ### Registry lemmas -/

lemma regGet_regSet_self (r : Registry) (id : String) (rec : JobRec) :
    regGet (regSet r id rec) id = some rec := by
  induction r with
  | nil => simp [regSet, regGet]
  | cons hd tl ih =>
      obtain ⟨k, v⟩ := hd
      by_cases h : k = id
      · subst h; simp [regSet, regGet]
      · simp [regSet, regGet, h, ih]

lemma regGet_regSet_ne (r : Registry) (id id' : String) (rec : JobRec)
    (h : id ≠ id') : regGet (regSet r id rec) id' = regGet r id' := by
  induction r with
  | nil => simp [regSet, regGet, h]
  | cons hd tl ih =>
      obtain ⟨k, v⟩ := hd
      by_cases hk : k = id
      · subst hk; simp [regSet, regGet, h, ih]
      · by_cases hk' : k = id'
        · subst hk'; simp [regSet, regGet, hk]
        · simp [regSet, regGet, hk, hk', ih]

lemma regGet_isSome_regSet (r : Registry) (id id' : String) (rec : JobRec)
    (h : (regGet r id).isSome = true) :
    (regGet (regSet r id' rec) id).isSome = true := by
  by_cases hid : id' = id
  · subst hid; rw [regGet_regSet_self]; rfl
  · rw [regGet_regSet_ne r id' id rec hid]; exact h

lemma applyWrite_present (r : Registry) (id id' : String) (w : RegWrite)
    (h : (regGet r id).isSome = true) :
    (regGet (applyWrite r id' w) id).isSome = true := by
  cases w with
  | assign rec => exact regGet_isSome_regSet r id id' rec h
  | setStatus s =>
      unfold applyWrite
      cases regGet r id' with
      | none => exact h
      | some j => exact regGet_isSome_regSet r id id' _ h
  | complete vu iu vp t =>
      unfold applyWrite
      cases regGet r id' with
      | none => exact h
      | some j => exact regGet_isSome_regSet r id id' _ h

lemma mem_regSet (r : Registry) (id : String) (rec : JobRec)
    (p : String × JobRec) (hp : p ∈ regSet r id rec) :
    p = (id, rec) ∨ p ∈ r := by
  induction r with
  | nil => simp [regSet] at hp; exact Or.inl hp
  | cons hd tl ih =>
      obtain ⟨k, v⟩ := hd
      by_cases hk : k = id
      · subst hk
        simp only [regSet, if_pos rfl] at hp
        rcases List.mem_cons.mp hp with h | h
        · exact Or.inl h
        · exact Or.inr (List.mem_cons_of_mem _ h)
      · simp only [regSet, if_neg hk] at hp
        rcases List.mem_cons.mp hp with h | h
        · exact Or.inr (h ▸ List.mem_cons_self _ _)
        · rcases ih h with h' | h'
          · exact Or.inl h'
          · exact Or.inr (List.mem_cons_of_mem _ h')

/-! ### Pipeline write invariants -/

/-- Every write the pipeline emits carries a real status (never `queued`). -/
def goodWrite : RegWrite → Bool
  | RegWrite.assign rec => atLeastImage rec.status
  | RegWrite.setStatus s => atLeastImage s
  | RegWrite.complete _ _ _ _ => true

lemma applyWrite_goodStatus (r : Registry) (id : String) (w : RegWrite)
    (hw : goodWrite w = true)
    (h : ∃ j, regGet r id = some j ∧ atLeastImage j.status = true) :
    ∃ j, regGet (applyWrite r id w) id = some j ∧ atLeastImage j.status = true := by
  obtain ⟨j, hj, hji⟩ := h
  cases w with
  | assign rec => exact ⟨rec, regGet_regSet_self _ _ _, hw⟩
  | setStatus s =>
      unfold applyWrite
      rw [hj]
      exact ⟨_, regGet_regSet_self _ _ _, hw⟩
  | complete vu iu vp t =>
      unfold applyWrite
      rw [hj]
      exact ⟨_, regGet_regSet_self _ _ _, rfl⟩

lemma foldl_goodStatus (l : List RegWrite) (id : String)
    (hl : ∀ w ∈ l, goodWrite w = true) (r : Registry)
    (h : ∃ j, regGet r id = some j ∧ atLeastImage j.status = true) :
    ∃ j, regGet (l.foldl (fun r w => applyWrite r id w) r) id = some j ∧
      atLeastImage j.status = true := by
  induction l generalizing r with
  | nil => exact h
  | cons w ws ih =>
      exact ih (fun x hx => hl x (List.mem_cons_of_mem _ hx)) _
        (applyWrite_goodStatus r id w (hl w (List.mem_cons_self _ _)) h)

/-- The pipeline's write list always begins by registering the job with
status `image`, and every later write carries a real status. -/
lemma pipelineWrites_shape (cfg : Config) (o : Oracle) (jobId : String)
    (phone : Option String) :
    ∃ rest, pipelineWrites cfg o jobId phone =
      RegWrite.assign (imageRecord phone o.startTime) :: rest ∧
      ∀ w ∈ rest, goodWrite w = true := by
  unfold pipelineWrites
  cases hIG : o.imageGen with
  | raise msg =>
      refine ⟨_, rfl, ?_⟩
      intro w hw
      simp only [List.mem_singleton] at hw
      subst hw; rfl
  | ok imgUrl =>
      dsimp only
      by_cases h1 : imgUrl = ""
      · rw [if_pos h1]
        refine ⟨_, rfl, ?_⟩
        intro w hw
        simp only [List.mem_singleton] at hw
        subst hw; rfl
      · rw [if_neg h1]
        cases hVG : o.videoGen with
        | raise msg =>
            refine ⟨_, rfl, ?_⟩
            intro w hw
            rcases List.mem_cons.mp hw with h | h
            · subst h; rfl
            · simp only [List.mem_singleton] at h
              subst h; rfl
        | ok vidUrl =>
            dsimp only
            by_cases h2 : vidUrl = ""
            · rw [if_pos h2]
              refine ⟨_, rfl, ?_⟩
              intro w hw
              rcases List.mem_cons.mp hw with h | h
              · subst h; rfl
              · simp only [List.mem_singleton] at h
                subst h; rfl
            · rw [if_neg h2]
              cases hSS : o.storeStep with
              | raise msg =>
                  refine ⟨_, rfl, ?_⟩
                  intro w hw
                  rcases List.mem_cons.mp hw with h | h
                  · subst h; rfl
                  · simp only [List.mem_singleton] at h
                    subst h; rfl
              | ok u =>
                  refine ⟨_, rfl, ?_⟩
                  intro w hw
                  rcases List.mem_cons.mp hw with h | h
                  · subst h; rfl
                  · simp only [List.mem_singleton] at h
                    subst h; rfl

/-- Exhaustive description of the status sequences a pipeline run writes. -/
lemma statusSeq_cases (cfg : Config) (o : Oracle) (jobId : String)
    (phone : Option String) :
    (oracleFails o = true ∧
      (statusSeq cfg o jobId phone = [Status.image, Status.failed] ∨
       statusSeq cfg o jobId phone = [Status.image, Status.video, Status.failed])) ∨
    (oracleFails o = false ∧
      statusSeq cfg o jobId phone = [Status.image, Status.video, Status.completed]) := by
  unfold statusSeq pipelineWrites oracleFails
  cases hIG : o.imageGen with
  | raise msg => exact Or.inl ⟨rfl, Or.inl rfl⟩
  | ok imgUrl =>
      dsimp only
      by_cases h1 : imgUrl = ""
      · rw [if_pos h1, if_pos h1]
        exact Or.inl ⟨rfl, Or.inl rfl⟩
      · rw [if_neg h1, if_neg h1]
        cases hVG : o.videoGen with
        | raise msg => exact Or.inl ⟨rfl, Or.inr rfl⟩
        | ok vidUrl =>
            dsimp only
            by_cases h2 : vidUrl = ""
            · rw [if_pos h2, if_pos h2]
              exact Or.inl ⟨rfl, Or.inr rfl⟩
            · rw [if_neg h2, if_neg h2]
              cases hSS : o.storeStep with
              | raise msg => exact Or.inl ⟨rfl, Or.inr rfl⟩
              | ok u => exact Or.inr ⟨rfl, rfl⟩

/-! ### Concrete fixtures used by counterexamples and witnesses -/

/-- A local-storage configuration matching the environment defaults
(main.py 34-47). -/
def cfgL : Config :=
  { useS3 := false, s3Pre := "uae-national-day", s3PublicDomain := "",
    publicBaseUrl := "", rootDir := "/app", uploadDir := "/app/uploads",
    maxUploadSizeMB := 10 }

/-- An oracle on which every external call succeeds. -/
def oracleOk : Oracle :=
  { imageGen := CallResult.ok "https://img", videoGen := CallResult.ok "https://vid",
    storeStep := CallResult.ok (), presign := fun _ => "https://presigned",
    startTime := 1, completeTime := 3, failTime := 2 }

/-- An oracle on which the image-generation call raises. -/
def oracleImgFail : Oracle :=
  { oracleOk with imageGen := CallResult.raise "APIError: image call failed" }

/-- An oracle on which the video-generation call raises. -/
def oracleVidFail : Oracle :=
  { oracleOk with videoGen := CallResult.raise "APIError: video call failed" }

/-! ### C1: submitted job immediately pollable -/

/-- Claim C1, counterexample.  The submit handler (main.py 299-307) starts
the pipeline thread and returns the job id, but the job is registered in
`JOBS` only by the thread's first action (main.py 170-179).  A poll that
runs before any pipeline write (zero writes applied) therefore observes
the `queued` placeholder, not `image` or later, refuting the claim that
the returned id is immediately retrievable with status `image` or later. -/
theorem submit_poll_race_counterexample :
    (create_job cfgL "job-1" "Boy" "image/jpeg" "photo.jpg" [2 * 1024 * 1024]).result =
      CreateResult.ok "job-1" ∧
    (job_status (registryAfter [] "job-1"
        (pipelineWrites cfgL oracleOk "job-1" none) 0) "job-1").status =
      Status.queued ∧
    atLeastImage Status.queued = false := by
  refine ⟨by decide, rfl, rfl⟩

/-- Claim C1, amended.  Once the pipeline task has performed its first
registry write (any `k ≥ 1` writes applied), the submitted job id is
retrievable: the registry holds an entry for it and every poll reports a
status of `image` or later, never the `queued` placeholder; moreover no
registry write ever removes an existing entry, so the id stays retrievable
for the lifetime of the process. -/
theorem submit_then_poll_after_registration (cfg : Config) (o : Oracle)
    (jobId : String) (phone : Option String) (r0 : Registry) (k : Nat)
    (hk : 1 ≤ k) :
    ((regGet (registryAfter r0 jobId (pipelineWrites cfg o jobId phone) k)
        jobId).isSome = true) ∧
    (atLeastImage (job_status (registryAfter r0 jobId
        (pipelineWrites cfg o jobId phone) k) jobId).status = true) ∧
    (∀ (r : Registry) (id id' : String) (w : RegWrite),
      (regGet r id).isSome = true →
      (regGet (applyWrite r id' w) id).isSome = true) := by
  obtain ⟨rest, hshape, hgood⟩ := pipelineWrites_shape cfg o jobId phone
  obtain ⟨m, rfl⟩ : ∃ m, k = m + 1 := ⟨k - 1, by omega⟩
  rw [hshape]
  unfold registryAfter
  rw [List.take_succ_cons, List.foldl_cons]
  have hinv : ∃ j, regGet (applyWrite r0 jobId
      (RegWrite.assign (imageRecord phone o.startTime))) jobId = some j ∧
      atLeastImage j.status = true :=
    ⟨_, regGet_regSet_self _ _ _, rfl⟩
  obtain ⟨j, hj, hji⟩ := foldl_goodStatus (rest.take m) jobId
    (fun w hw => hgood w (List.take_subset _ _ hw)) _ hinv
  refine ⟨by rw [hj]; rfl, ?_, ?_⟩
  · unfold job_status
    rw [hj]
    dsimp only
    by_cases hc : j.status = Status.completed
    · rw [if_pos hc]; exact hji
    · rw [if_neg hc]; exact hji
  · intro r id id' w h
    exact applyWrite_present r id id' w h

/-- Witness for the amended claim C1 at a concrete submission. -/
theorem submit_then_poll_after_registration_witness :
    (regGet (registryAfter [] "job-1"
        (pipelineWrites cfgL oracleOk "job-1" none) 1) "job-1").isSome = true :=
  (submit_then_poll_after_registration cfgL oracleOk "job-1" none [] 1
    (by decide)).1

/-! ### C2: per-job status writes follow the state machine -/

/-- Claim C2.  For every pipeline run, the sequence of status values
written to the registry starts at `image`, follows only the transitions
image to video, video to completed, image or video to failed (so no state
is skipped on the success path and nothing follows a terminal state), and
ends in `completed` or `failed`.  When no external step fails the sequence
is exactly image, video, completed; when a step fails it is one of the two
failure sequences, which also shows `failed` is reachable from each
non-terminal state. -/
theorem pipeline_status_machine :
    (∀ (cfg : Config) (o : Oracle) (jobId : String) (phone : Option String),
      (statusSeq cfg o jobId phone).head? = some Status.image ∧
      List.Chain' (fun a b => stepOk a b = true) (statusSeq cfg o jobId phone) ∧
      ((statusSeq cfg o jobId phone).getLast? = some Status.completed ∨
       (statusSeq cfg o jobId phone).getLast? = some Status.failed) ∧
      (oracleFails o = false →
        statusSeq cfg o jobId phone =
          [Status.image, Status.video, Status.completed]) ∧
      (oracleFails o = true →
        (statusSeq cfg o jobId phone = [Status.image, Status.failed] ∨
         statusSeq cfg o jobId phone =
           [Status.image, Status.video, Status.failed]))) ∧
    (∃ (o : Oracle) (cfg : Config) (jobId : String) (phone : Option String),
      statusSeq cfg o jobId phone = [Status.image, Status.failed]) ∧
    (∃ (o : Oracle) (cfg : Config) (jobId : String) (phone : Option String),
      statusSeq cfg o jobId phone = [Status.image, Status.video, Status.failed]) := by
  refine ⟨?_, ⟨oracleImgFail, cfgL, "j", none, by decide⟩,
    ⟨oracleVidFail, cfgL, "j", none, by decide⟩⟩
  intro cfg o jobId phone
  rcases statusSeq_cases cfg o jobId phone with ⟨hf, hss | hss⟩ | ⟨hf, hss⟩ <;>
    rw [hss] <;>
    refine ⟨rfl, ?_, ?_, ?_, ?_⟩
  · simp [List.chain'_cons, stepOk]
  · exact Or.inr rfl
  · intro h; rw [hf] at h; cases h
  · intro _; exact Or.inl rfl
  · simp [List.chain'_cons, stepOk]
  · exact Or.inr rfl
  · intro h; rw [hf] at h; cases h
  · intro _; exact Or.inr rfl
  · simp [List.chain'_cons, stepOk]
  · exact Or.inl rfl
  · intro _; rfl
  · intro h; rw [hf] at h; cases h

/-- Witness for claim C2 on a concrete successful run. -/
theorem pipeline_status_machine_witness :
    statusSeq cfgL oracleOk "j" none =
      [Status.image, Status.video, Status.completed] :=
  (pipeline_status_machine.1 cfgL oracleOk "j" none).2.2.2.1 (by decide)

/-! ### C3: quiz answer key exposure -/

/-- A sample quiz question with its correct-answer key. -/
def qSample : Question :=
  { id := "q1", question := "Capital of the UAE?",
    options := ["Dubai", "Abu Dhabi"], answer := "Abu Dhabi" }

/-- Claim C3, counterexample.  The handler (main.py 346-356) sanitises the
`questions` field but returns the unsanitised question records, correct
answers included, as the `key` field of the same response: for a concrete
selected question the response's key equals the full record and exposes
its correct answer, refuting the claim that the correct-answer key is not
returned to the client. -/
theorem quiz_answer_key_returned_counterexample :
    (get_questions [qSample]).key = [qSample] ∧
    ((get_questions [qSample]).key.map Question.answer) = ["Abu Dhabi"] := by
  exact ⟨rfl, rfl⟩

/-- Claim C3, amended.  The `questions` field of the response contains only
the client-visible fields (identifier, question text, options), but the
response also carries the full question records as its `key` field, so
every selected question's correct answer is returned to the client inside
that blob (the stateless-grading design). -/
theorem quiz_sanitized_but_key_exposes_answers (qs : List Question) :
    (get_questions qs).questions = qs.map sanitizeQ ∧
    (get_questions qs).key = qs ∧
    (∀ q, q ∈ qs → q.answer ∈ ((get_questions qs).key.map Question.answer)) := by
  refine ⟨rfl, rfl, ?_⟩
  intro q hq
  exact List.mem_map_of_mem Question.answer hq

/-- Witness for the amended claim C3 at a concrete question list. -/
theorem quiz_sanitized_but_key_exposes_answers_witness :
    qSample.answer ∈ ((get_questions [qSample]).key.map Question.answer) :=
  (quiz_sanitized_but_key_exposes_answers [qSample]).2.2 qSample
    (List.mem_singleton.mpr rfl)

/-! ### C4: completed jobs always carry both URLs -/

/-- True when an optional URL is present and non-empty. -/
def optNonempty : Option String → Bool
  | some s => decide (0 < s.length)
  | none => false

/-- A record is well-formed when, if completed, both media URLs are set and
non-empty. -/
def urlsStrong (j : JobRec) : Prop :=
  j.status = Status.completed →
    (optNonempty j.videoUrl = true ∧ optNonempty j.imageUrl = true)

/-- Registry-wide invariant: every completed job carries both URLs. -/
def CompletedOkReg (r : Registry) : Prop := ∀ p ∈ r, urlsStrong p.2

/-- Writes that preserve the completed-jobs invariant. -/
def strongWrite : RegWrite → Prop
  | RegWrite.assign rec => urlsStrong rec
  | RegWrite.setStatus s => s ≠ Status.completed
  | RegWrite.complete vu iu _ _ => 0 < vu.length ∧ 0 < iu.length

lemma applyWrite_completedOk (r : Registry) (id : String) (w : RegWrite)
    (hw : strongWrite w) (hr : CompletedOkReg r) :
    CompletedOkReg (applyWrite r id w) := by
  cases w with
  | assign rec =>
      intro p hp
      rcases mem_regSet r id rec p hp with h | h
      · rw [h]; exact hw
      · exact hr p h
  | setStatus s =>
      unfold applyWrite
      cases hg : regGet r id with
      | none => exact hr
      | some j =>
          intro p hp
          rcases mem_regSet r id _ p hp with h | h
          · rw [h]
            intro hc
            exact absurd hc hw
          · exact hr p h
  | complete vu iu vp t =>
      unfold applyWrite
      cases hg : regGet r id with
      | none => exact hr
      | some j =>
          intro p hp
          rcases mem_regSet r id _ p hp with h | h
          · rw [h]
            intro _
            refine ⟨?_, ?_⟩
            · simp [JobRec.completeWith, optNonempty]
              exact hw.1
            · simp [JobRec.completeWith, optNonempty]
              exact hw.2
          · exact hr p h

/-- The URLs recorded at completion are non-empty, given that the external
presigner returns non-empty URLs. -/
lemma finalUrls_nonempty (cfg : Config) (o : Oracle) (jobId : String)
    (hp : ∀ key, 0 < (o.presign key).length) :
    0 < (finalUrls cfg o jobId).1.length ∧
    0 < (finalUrls cfg o jobId).2.1.length := by
  unfold finalUrls
  by_cases hs : cfg.useS3
  · rw [if_pos hs]
    dsimp only
    unfold s3UrlForKey
    have h1 : ("/" : String).length = 1 := rfl
    constructor
    · by_cases hd : cfg.s3PublicDomain = ""
      · rw [if_pos hd]; exact hp _
      · rw [if_neg hd]
        simp [String.length_append, h1]
    · by_cases hd : cfg.s3PublicDomain = ""
      · rw [if_pos hd]; exact hp _
      · rw [if_neg hd]
        simp [String.length_append, h1]
  · rw [if_neg hs]
    dsimp only
    have h4 : (".mp4" : String).length = 4 := rfl
    have h5 : (".jpeg" : String).length = 5 := rfl
    constructor
    · simp [String.length_append, h4]
    · simp [String.length_append, h5]

/-- Every write of a pipeline run preserves the completed-jobs invariant. -/
lemma pipelineWrites_strong (cfg : Config) (o : Oracle) (jobId : String)
    (phone : Option String) (hp : ∀ key, 0 < (o.presign key).length) :
    ∀ w ∈ pipelineWrites cfg o jobId phone, strongWrite w := by
  have himg : strongWrite (RegWrite.assign (imageRecord phone o.startTime)) := by
    intro hc
    simp [imageRecord] at hc
  have hfail : ∀ msg t, strongWrite (RegWrite.assign (failedRecord phone msg t)) := by
    intro msg t hc
    simp [failedRecord] at hc
  have hvid : strongWrite (RegWrite.setStatus Status.video) := by
    intro hc
    cases hc
  unfold pipelineWrites
  cases hIG : o.imageGen with
  | raise msg =>
      intro w hw
      rcases List.mem_cons.mp hw with h | h
      · rw [h]; exact himg
      · simp only [List.mem_singleton] at h
        rw [h]; exact hfail _ _
  | ok imgUrl =>
      dsimp only
      by_cases h1 : imgUrl = ""
      · rw [if_pos h1]
        intro w hw
        rcases List.mem_cons.mp hw with h | h
        · rw [h]; exact himg
        · simp only [List.mem_singleton] at h
          rw [h]; exact hfail _ _
      · rw [if_neg h1]
        cases hVG : o.videoGen with
        | raise msg =>
            intro w hw
            rcases List.mem_cons.mp hw with h | h
            · rw [h]; exact himg
            · rcases List.mem_cons.mp h with h' | h'
              · rw [h']; exact hvid
              · simp only [List.mem_singleton] at h'
                rw [h']; exact hfail _ _
        | ok vidUrl =>
            dsimp only
            by_cases h2 : vidUrl = ""
            · rw [if_pos h2]
              intro w hw
              rcases List.mem_cons.mp hw with h | h
              · rw [h]; exact himg
              · rcases List.mem_cons.mp h with h' | h'
                · rw [h']; exact hvid
                · simp only [List.mem_singleton] at h'
                  rw [h']; exact hfail _ _
            · rw [if_neg h2]
              cases hSS : o.storeStep with
              | raise msg =>
                  intro w hw
                  rcases List.mem_cons.mp hw with h | h
                  · rw [h]; exact himg
                  · rcases List.mem_cons.mp h with h' | h'
                    · rw [h']; exact hvid
                    · simp only [List.mem_singleton] at h'
                      rw [h']; exact hfail _ _
              | ok u =>
                  intro w hw
                  rcases List.mem_cons.mp hw with h | h
                  · rw [h]; exact himg
                  · rcases List.mem_cons.mp h with h' | h'
                    · rw [h']; exact hvid
                    · simp only [List.mem_singleton] at h'
                      rw [h']
                      exact finalUrls_nonempty cfg o jobId hp

lemma foldl_completedOk (l : List RegWrite) (id : String)
    (hl : ∀ w ∈ l, strongWrite w) (r : Registry) (hr : CompletedOkReg r) :
    CompletedOkReg (l.foldl (fun r w => applyWrite r id w) r) := by
  induction l generalizing r with
  | nil => exact hr
  | cons w ws ih =>
      exact ih (fun x hx => hl x (List.mem_cons_of_mem _ hx)) _
        (applyWrite_completedOk r id w (hl w (List.mem_cons_self _ _)) hr)

/-- Claim C4.  Starting from any registry in which every completed job
carries both URLs, after any number of pipeline writes every job whose
status is `completed` still has both its video URL and its image URL set
and non-empty — the completion block (main.py 241-246) writes both URLs in
the same atomic registry update, so no intermediate state shows a
completed job with only one URL.  The hypothesis on the presigner states
that the external presigned-URL call returns a non-empty URL. -/
theorem completed_implies_both_urls (cfg : Config) (o : Oracle)
    (jobId : String) (phone : Option String) (r0 : Registry) (k : Nat)
    (hp : ∀ key, 0 < (o.presign key).length)
    (h0 : CompletedOkReg r0) :
    CompletedOkReg (registryAfter r0 jobId (pipelineWrites cfg o jobId phone) k) := by
  unfold registryAfter
  exact foldl_completedOk _ jobId
    (fun w hw => pipelineWrites_strong cfg o jobId phone hp w
      (List.take_subset _ _ hw)) r0 h0

/-- Witness for claim C4: a full successful run from the empty registry. -/
theorem completed_implies_both_urls_witness :
    CompletedOkReg (registryAfter [] "j"
      (pipelineWrites cfgL oracleOk "j" none) 3) :=
  completed_implies_both_urls cfgL oracleOk "j" none [] 3
    (fun _ => by show 0 < ("https://presigned" : String).length; decide)
    (fun p hp => absurd hp (List.not_mem_nil p))

/-! ### C5: submit-endpoint rejections have no effects -/

/-- Claim C5.  An invalid category or content type is rejected with 400
before any effect (main.py 274-277), and an oversized upload is rejected
mid-stream with 413 (main.py 293-294); in every rejection case the handler
spawns no pipeline thread and performs no registry write, so no job is
created. -/
theorem create_job_rejections (cfg : Config)
    (jobId ageGroup contentType filename : String) (chunks : List Nat) :
    (ageGroup ∉ validAgeGroups →
      create_job cfg jobId ageGroup contentType filename chunks =
        { result := CreateResult.err 400 "Invalid age_group", events := [] }) ∧
    (ageGroup ∈ validAgeGroups → contentType ∉ validContentTypes →
      create_job cfg jobId ageGroup contentType filename chunks =
        { result := CreateResult.err 400 "Only JPEG/PNG images are accepted",
          events := [] }) ∧
    (ageGroup ∈ validAgeGroups → contentType ∈ validContentTypes →
      streamOk (MAX_UPLOAD_SIZE cfg) 0 chunks = false →
      ((create_job cfg jobId ageGroup contentType filename chunks).result =
          CreateResult.err 413
            ("File too large (max " ++ toString cfg.maxUploadSizeMB ++ "MB)") ∧
       (∀ id, Ev.spawn id ∉
          (create_job cfg jobId ageGroup contentType filename chunks).events) ∧
       (∀ id w, Ev.regWrite id w ∉
          (create_job cfg jobId ageGroup contentType filename chunks).events))) := by
  refine ⟨?_, ?_, ?_⟩
  · intro h
    unfold create_job
    rw [if_neg h]
  · intro h1 h2
    unfold create_job
    rw [if_pos h1, if_neg h2]
  · intro h1 h2 h3
    unfold create_job
    rw [if_pos h1, if_pos h2]
    dsimp only
    simp only [h3, Bool.false_eq_true, if_false]
    refine ⟨trivial, ?_, ?_⟩
    · intro id h
      simp at h
    · intro id w h
      simp at h

/-- Witness for claim C5: the three rejection cases at concrete inputs. -/
theorem create_job_rejections_witness :
    create_job cfgL "j1" "Dog" "image/jpeg" "a.jpg" [1] =
      { result := CreateResult.err 400 "Invalid age_group", events := [] } ∧
    create_job cfgL "j2" "Boy" "text/plain" "a.jpg" [1] =
      { result := CreateResult.err 400 "Only JPEG/PNG images are accepted",
        events := [] } ∧
    (create_job cfgL "j3" "Boy" "image/jpeg" "a.jpg" [11 * 1024 * 1024]).result =
      CreateResult.err 413
        ("File too large (max " ++ toString cfgL.maxUploadSizeMB ++ "MB)") :=
  ⟨(create_job_rejections cfgL "j1" "Dog" "image/jpeg" "a.jpg" [1]).1 (by decide),
   (create_job_rejections cfgL "j2" "Boy" "text/plain" "a.jpg" [1]).2.1
     (by decide) (by decide),
   ((create_job_rejections cfgL "j3" "Boy" "image/jpeg" "a.jpg"
     [11 * 1024 * 1024]).2.2 (by decide) (by decide) (by decide)).1⟩

/-! ### C6: QR endpoint contract -/

/-- Claim C6.  The QR endpoint (main.py 326-344) returns its 404 error
exactly when the job is absent, not completed, or its video URL is unset
or empty; in every other case it returns the PNG whose QR payload is the
job's video URL, served as image/png with the one-hour cache hint. -/
theorem qr_endpoint_contract (r : Registry) (jobId : String) :
    (job_qr r jobId =
        Except.error { code := 404, detail := "QR not available" } ↔
      (regGet r jobId = none ∨
        ∃ j, regGet r jobId = some j ∧
          (j.status ≠ Status.completed ∨ j.videoUrl = none ∨
           j.videoUrl = some ""))) ∧
    (∀ (j : JobRec) (u : String), regGet r jobId = some j →
      j.status = Status.completed → j.videoUrl = some u → u ≠ "" →
      job_qr r jobId = Except.ok
        { png := { payloadUrl := u }, mediaType := "image/png",
          cacheControl := "public, max-age=3600" }) := by
  cases hg : regGet r jobId with
  | none =>
      constructor
      · constructor
        · intro _; exact Or.inl rfl
        · intro _
          unfold job_qr
          rw [hg]
      · intro j u hj
        exact Option.noConfusion hj
  | some j0 =>
      by_cases hc : j0.status = Status.completed
      · cases hv : j0.videoUrl with
        | none =>
            have he : job_qr r jobId =
                Except.error { code := 404, detail := "QR not available" } := by
              unfold job_qr
              rw [hg]
              dsimp only
              rw [if_pos hc, hv]
            constructor
            · constructor
              · intro _; exact Or.inr ⟨j0, rfl, Or.inr (Or.inl hv)⟩
              · intro _; exact he
            · intro j u hj hcc hvu hne
              injection hj with hj'
              subst hj'
              rw [hv] at hvu
              exact Option.noConfusion hvu
        | some u0 =>
            by_cases hu : u0 = ""
            · have he : job_qr r jobId =
                  Except.error { code := 404, detail := "QR not available" } := by
                unfold job_qr
                rw [hg]
                dsimp only
                rw [if_pos hc, hv]
                dsimp only
                rw [if_pos hu]
              constructor
              · constructor
                · intro _
                  refine Or.inr ⟨j0, rfl, Or.inr (Or.inr ?_)⟩
                  rw [hv, hu]
                · intro _; exact he
              · intro j u hj hcc hvu hne
                injection hj with hj'
                subst hj'
                rw [hv] at hvu
                injection hvu with hvu'
                exact absurd (hvu' ▸ hu) hne
            · have hok : job_qr r jobId = Except.ok
                  { png := { payloadUrl := u0 }, mediaType := "image/png",
                    cacheControl := "public, max-age=3600" } := by
                unfold job_qr
                rw [hg]
                dsimp only
                rw [if_pos hc, hv]
                dsimp only
                rw [if_neg hu]
              constructor
              · constructor
                · intro he'
                  rw [hok] at he'
                  exact Except.noConfusion he'
                · intro hcond
                  rcases hcond with h | ⟨j, hj, hbad⟩
                  · exact Option.noConfusion h
                  · injection hj with hj'
                    subst hj'
                    rcases hbad with h | h | h
                    · exact absurd hc h
                    · rw [hv] at h
                      exact Option.noConfusion h
                    · rw [hv] at h
                      injection h with h'
                      exact absurd h' hu
              · intro j u hj hcc hvu hne
                injection hj with hj'
                subst hj'
                rw [hv] at hvu
                injection hvu with hvu'
                rw [hok, hvu']
      · have he : job_qr r jobId =
            Except.error { code := 404, detail := "QR not available" } := by
          unfold job_qr
          rw [hg]
          dsimp only
          rw [if_neg hc]
        constructor
        · constructor
          · intro _; exact Or.inr ⟨j0, rfl, Or.inl hc⟩
          · intro _; exact he
        · intro j u hj hcc hvu hne
          injection hj with hj'
          subst hj'
          exact absurd hcc hc

/-- A registry with one completed job, for the C6 witness. -/
def rC6 : Registry :=
  [("j", { status := Status.completed, videoUrl := some "https://v",
           imageUrl := some "https://i", videoPath := none, error := none,
           phone := none, startedAt := some 1, completedAt := some 2,
           failedAt := none })]

/-- Witness for claim C6 at a concrete completed job. -/
theorem qr_endpoint_contract_witness :
    job_qr rC6 "j" = Except.ok
      { png := { payloadUrl := "https://v" }, mediaType := "image/png",
        cacheControl := "public, max-age=3600" } :=
  (qr_endpoint_contract rC6 "j").2 _ "https://v" rfl rfl rfl (by decide)

/-! ### C7: lock discipline of registry accesses -/

lemma accessesLocked_cleanup (d : Nat) (imgPath : String) (fs : List String) :
    accessesLocked d (cleanupEvents imgPath fs) = true := by
  unfold cleanupEvents
  split
  · rfl
  · rfl

lemma accessesLocked_writeEvents (id : String) (ws : List RegWrite) (d : Nat)
    (rest : List Ev) (h : accessesLocked d rest = true) :
    accessesLocked d (writeEvents id ws ++ rest) = true := by
  induction ws with
  | nil => simpa using h
  | cons w ws ih =>
      simp only [writeEvents, List.cons_append, accessesLocked,
        Nat.add_sub_cancel, Bool.and_eq_true, decide_eq_true_eq]
      exact ⟨Nat.succ_pos d, ih⟩

/-- Claim C7, counterexample.  The health endpoint is one of the system's
endpoints, and its registry read (`JOBS.values()` at main.py 389) happens
at lock depth zero: not every registry access is performed while holding
`JOBS_LOCK`, refuting the claim. -/
theorem healthz_unlocked_read_counterexample :
    healthzTrace ∈ endpointTraces cfgL oracleOk "job-1" "Boy" "image/jpeg"
      "photo.jpg" [5] none "/app/uploads/u.jpg" [] ∧
    accessesLocked 0 healthzTrace = false := by
  decide

/-- Claim C7, amended.  Every registry access of the submit, status-poll
and QR endpoints and of the pipeline task is performed while holding the
registry lock (the submit handler performs none at all), but the health
endpoint reads the registry without acquiring the lock. -/
theorem registry_lock_discipline (cfg : Config) (o : Oracle)
    (jobId ageGroup contentType filename : String) (chunks : List Nat)
    (phone : Option String) (imgPath : String) (fs : List String) :
    accessesLocked 0
      (create_job cfg jobId ageGroup contentType filename chunks).events = true ∧
    accessesLocked 0 jobStatusTrace = true ∧
    accessesLocked 0 jobQrTrace = true ∧
    accessesLocked 0 (pipelineTrace cfg o jobId phone imgPath fs) = true ∧
    healthzTrace = [Ev.regRead] ∧
    accessesLocked 0 healthzTrace = false := by
  refine ⟨?_, by decide, by decide, ?_, rfl, by decide⟩
  · unfold create_job
    split_ifs <;> rfl
  · unfold pipelineTrace
    exact accessesLocked_writeEvents jobId _ 0 _
      (accessesLocked_cleanup 0 imgPath fs)

/-! ### C8: temporary upload removed exactly once, failure swallowed -/

/-- Number of removal attempts of path `p` in a trace. -/
def removesOf (p : String) (evs : List Ev) : Nat :=
  (evs.filter (fun e => e == Ev.fsRemove p)).length

lemma removesOf_append (p : String) (a b : List Ev) :
    removesOf p (a ++ b) = removesOf p a + removesOf p b := by
  unfold removesOf
  rw [List.filter_append, List.length_append]

lemma removesOf_writeEvents (p id : String) (ws : List RegWrite) :
    removesOf p (writeEvents id ws) = 0 := by
  induction ws with
  | nil => rfl
  | cons w ws ih =>
      have hacq : (Ev.acq == Ev.fsRemove p) = false := rfl
      have hrel : (Ev.rel == Ev.fsRemove p) = false := rfl
      have hwr : (Ev.regWrite id w == Ev.fsRemove p) = false := rfl
      unfold removesOf at ih ⊢
      simp only [writeEvents, List.filter_cons, hacq, hrel, hwr,
        Bool.false_eq_true, if_false]
      exact ih

lemma removesOf_single (p : String) : removesOf p [Ev.fsRemove p] = 1 := by
  unfold removesOf
  simp [List.filter_cons]

lemma runEvents_fst_eq (b b' : Bool) (evs : List Ev) :
    ∀ st st' : Registry × List String, st.1 = st'.1 →
    (runEvents b st evs).1 = (runEvents b' st' evs).1 := by
  induction evs with
  | nil => intro st st' h; exact h
  | cons e rest ih =>
      intro st st' h
      show (runEvents b (sysStep b st e) rest).1 =
        (runEvents b' (sysStep b' st' e) rest).1
      apply ih
      cases e <;> simp [sysStep, h]

/-- Claim C8.  On every exit path of a pipeline run, the trace ends with
the scoped cleanup: provided the temporary upload file exists (it was
written by the submit handler and nothing else touches it), the trace
contains exactly one removal attempt for it, placed after every registry
write; and whether that removal raises or succeeds has no effect on the
registry, so a cleanup failure never affects the job's recorded outcome. -/
theorem pipeline_cleanup_once (cfg : Config) (o : Oracle) (jobId : String)
    (phone : Option String) (imgPath : String) (fs : List String)
    (r0 : Registry) (hmem : imgPath ∈ fs) :
    pipelineTrace cfg o jobId phone imgPath fs =
      writeEvents jobId (pipelineWrites cfg o jobId phone) ++
        [Ev.fsRemove imgPath] ∧
    removesOf imgPath (pipelineTrace cfg o jobId phone imgPath fs) = 1 ∧
    (runEvents true (r0, fs) (pipelineTrace cfg o jobId phone imgPath fs)).1 =
      (runEvents false (r0, fs) (pipelineTrace cfg o jobId phone imgPath fs)).1 := by
  have htr : pipelineTrace cfg o jobId phone imgPath fs =
      writeEvents jobId (pipelineWrites cfg o jobId phone) ++
        [Ev.fsRemove imgPath] := by
    unfold pipelineTrace cleanupEvents
    rw [if_pos hmem]
  refine ⟨htr, ?_, ?_⟩
  · rw [htr, removesOf_append, removesOf_writeEvents, removesOf_single]
  · exact runEvents_fst_eq true false _ _ _ rfl

/-- Witness for claim C8 on a concrete run with the upload file present. -/
theorem pipeline_cleanup_once_witness :
    removesOf "/app/uploads/j.jpg" (pipelineTrace cfgL oracleOk "j" none
      "/app/uploads/j.jpg" ["/app/uploads/j.jpg"]) = 1 :=
  (pipeline_cleanup_once cfgL oracleOk "j" none "/app/uploads/j.jpg"
    ["/app/uploads/j.jpg"] [] (by decide)).2.1

/-! ### C9: rejected oversized upload leaves the partial file -/

/-- Claim C9.  When validation passes but the stream exceeds the size
limit, the handler answers 413; its cleanup only closes the upload stream:
the trace holds the file creation and the close, no removal and no spawn,
so the partially written file is still on the filesystem afterwards and no
pipeline task (whose cleanup would delete it) ever runs for that path. -/
theorem oversize_keeps_upload_file (cfg : Config)
    (jobId ageGroup contentType filename : String) (chunks : List Nat)
    (r0 : Registry) (fs : List String) (b : Bool)
    (hag : ageGroup ∈ validAgeGroups) (hct : contentType ∈ validContentTypes)
    (hover : streamOk (MAX_UPLOAD_SIZE cfg) 0 chunks = false) :
    create_job cfg jobId ageGroup contentType filename chunks =
      { result := CreateResult.err 413
          ("File too large (max " ++ toString cfg.maxUploadSizeMB ++ "MB)"),
        events := [Ev.fsCreate (uploadPathOf cfg jobId filename), Ev.close] } ∧
    (∀ p, Ev.fsRemove p ∉
      (create_job cfg jobId ageGroup contentType filename chunks).events) ∧
    (∀ id, Ev.spawn id ∉
      (create_job cfg jobId ageGroup contentType filename chunks).events) ∧
    uploadPathOf cfg jobId filename ∈
      (runEvents b (r0, fs)
        (create_job cfg jobId ageGroup contentType filename chunks).events).2 := by
  have hall : create_job cfg jobId ageGroup contentType filename chunks =
      { result := CreateResult.err 413
          ("File too large (max " ++ toString cfg.maxUploadSizeMB ++ "MB)"),
        events := [Ev.fsCreate (uploadPathOf cfg jobId filename), Ev.close] } := by
    unfold create_job
    rw [if_pos hag, if_pos hct]
    dsimp only
    simp only [hover, Bool.false_eq_true, if_false]
  refine ⟨hall, ?_, ?_, ?_⟩
  · intro p h
    rw [hall] at h
    simp at h
  · intro id h
    rw [hall] at h
    simp at h
  · rw [hall]
    simp only [runEvents, List.foldl_cons, List.foldl_nil, sysStep]
    by_cases hf : uploadPathOf cfg jobId filename ∈ fs
    · rw [if_pos hf]; exact hf
    · rw [if_neg hf]; exact List.mem_cons_self _ _

/-- Witness for claim C9 at a concrete oversized upload. -/
theorem oversize_keeps_upload_file_witness :
    create_job cfgL "j9" "Boy" "image/jpeg" "a.png" [11 * 1024 * 1024] =
      { result := CreateResult.err 413
          ("File too large (max " ++ toString cfgL.maxUploadSizeMB ++ "MB)"),
        events := [Ev.fsCreate (uploadPathOf cfgL "j9" "a.png"), Ev.close] } ∧
    uploadPathOf cfgL "j9" "a.png" ∈
      (runEvents false (([] : Registry), ([] : List String))
        (create_job cfgL "j9" "Boy" "image/jpeg" "a.png"
          [11 * 1024 * 1024]).events).2 :=
  ⟨(oversize_keeps_upload_file cfgL "j9" "Boy" "image/jpeg" "a.png"
      [11 * 1024 * 1024] [] [] false (by decide) (by decide) (by decide)).1,
   (oversize_keeps_upload_file cfgL "j9" "Boy" "image/jpeg" "a.png"
      [11 * 1024 * 1024] [] [] false (by decide) (by decide) (by decide)).2.2.2⟩

/-! ### C10: failure replaces the job record wholesale -/

/-- Claim C10.  Whenever the pipeline fails, the `except` handler's last
registry operation is a whole-record assignment of a fresh failed record:
the final registry entry for the job is exactly that record, which carries
a `failed_at` timestamp but no `started_at` (nor any other field written
earlier in the run), even though the record written at registration had
`started_at` set. -/
theorem failure_replaces_record (cfg : Config) (o : Oracle) (jobId : String)
    (phone : Option String) (r0 : Registry)
    (hfail : oracleFails o = true) :
    (pipelineWrites cfg o jobId phone).head? =
      some (RegWrite.assign (imageRecord phone o.startTime)) ∧
    (imageRecord phone o.startTime).startedAt = some o.startTime ∧
    (pipelineWrites cfg o jobId phone).getLast? =
      some (RegWrite.assign (failedRecord phone (failMsg o) o.failTime)) ∧
    regGet (registryAfter r0 jobId (pipelineWrites cfg o jobId phone)
        (pipelineWrites cfg o jobId phone).length) jobId =
      some (failedRecord phone (failMsg o) o.failTime) ∧
    (failedRecord phone (failMsg o) o.failTime).startedAt = none ∧
    (failedRecord phone (failMsg o) o.failTime).failedAt = some o.failTime := by
  cases hIG : o.imageGen with
  | raise msg =>
      have hW : pipelineWrites cfg o jobId phone =
          [RegWrite.assign (imageRecord phone o.startTime),
           RegWrite.assign (failedRecord phone msg o.failTime)] := by
        unfold pipelineWrites
        rw [hIG]
      have hM : failMsg o = msg := by
        unfold failMsg
        rw [hIG]
      rw [hW, hM]
      refine ⟨rfl, rfl, rfl, ?_, rfl, rfl⟩
      unfold registryAfter
      rw [List.take_length]
      simp only [List.foldl_cons, List.foldl_nil, applyWrite]
      exact regGet_regSet_self _ _ _
  | ok imgUrl =>
      by_cases h1 : imgUrl = ""
      · have hW : pipelineWrites cfg o jobId phone =
            [RegWrite.assign (imageRecord phone o.startTime),
             RegWrite.assign (failedRecord phone
               "RuntimeError: Image generation failed" o.failTime)] := by
          unfold pipelineWrites
          rw [hIG]
          dsimp only
          rw [if_pos h1]
        have hM : failMsg o = "RuntimeError: Image generation failed" := by
          unfold failMsg
          rw [hIG]
          dsimp only
          rw [if_pos h1]
        rw [hW, hM]
        refine ⟨rfl, rfl, rfl, ?_, rfl, rfl⟩
        unfold registryAfter
        rw [List.take_length]
        simp only [List.foldl_cons, List.foldl_nil, applyWrite]
        exact regGet_regSet_self _ _ _
      · cases hVG : o.videoGen with
        | raise msg =>
            have hW : pipelineWrites cfg o jobId phone =
                [RegWrite.assign (imageRecord phone o.startTime),
                 RegWrite.setStatus Status.video,
                 RegWrite.assign (failedRecord phone msg o.failTime)] := by
              unfold pipelineWrites
              rw [hIG]
              dsimp only
              rw [if_neg h1, hVG]
            have hM : failMsg o = msg := by
              unfold failMsg
              rw [hIG]
              dsimp only
              rw [if_neg h1, hVG]
            rw [hW, hM]
            refine ⟨rfl, rfl, rfl, ?_, rfl, rfl⟩
            unfold registryAfter
            rw [List.take_length]
            simp only [List.foldl_cons, List.foldl_nil, applyWrite]
            exact regGet_regSet_self _ _ _
        | ok vidUrl =>
            by_cases h2 : vidUrl = ""
            · have hW : pipelineWrites cfg o jobId phone =
                  [RegWrite.assign (imageRecord phone o.startTime),
                   RegWrite.setStatus Status.video,
                   RegWrite.assign (failedRecord phone
                     "RuntimeError: Video generation failed" o.failTime)] := by
                unfold pipelineWrites
                rw [hIG]
                dsimp only
                rw [if_neg h1, hVG]
                dsimp only
                rw [if_pos h2]
              have hM : failMsg o = "RuntimeError: Video generation failed" := by
                unfold failMsg
                rw [hIG]
                dsimp only
                rw [if_neg h1, hVG]
                dsimp only
                rw [if_pos h2]
              rw [hW, hM]
              refine ⟨rfl, rfl, rfl, ?_, rfl, rfl⟩
              unfold registryAfter
              rw [List.take_length]
              simp only [List.foldl_cons, List.foldl_nil, applyWrite]
              exact regGet_regSet_self _ _ _
            · cases hSS : o.storeStep with
              | raise msg =>
                  have hW : pipelineWrites cfg o jobId phone =
                      [RegWrite.assign (imageRecord phone o.startTime),
                       RegWrite.setStatus Status.video,
                       RegWrite.assign (failedRecord phone msg o.failTime)] := by
                    unfold pipelineWrites
                    rw [hIG]
                    dsimp only
                    rw [if_neg h1, hVG]
                    dsimp only
                    rw [if_neg h2, hSS]
                  have hM : failMsg o = msg := by
                    unfold failMsg
                    rw [hIG]
                    dsimp only
                    rw [if_neg h1, hVG]
                    dsimp only
                    rw [if_neg h2, hSS]
                  rw [hW, hM]
                  refine ⟨rfl, rfl, rfl, ?_, rfl, rfl⟩
                  unfold registryAfter
                  rw [List.take_length]
                  simp only [List.foldl_cons, List.foldl_nil, applyWrite]
                  exact regGet_regSet_self _ _ _
              | ok u =>
                  have hfl : oracleFails o = false := by
                    unfold oracleFails
                    rw [hIG]
                    dsimp only
                    rw [if_neg h1, hVG]
                    dsimp only
                    rw [if_neg h2, hSS]
                  rw [hfl] at hfail
                  cases hfail

/-- Witness for claim C10 at a concrete failing run. -/
theorem failure_replaces_record_witness :
    regGet (registryAfter [] "j" (pipelineWrites cfgL oracleImgFail "j" none)
        (pipelineWrites cfgL oracleImgFail "j" none).length) "j" =
      some (failedRecord none (failMsg oracleImgFail) oracleImgFail.failTime) ∧
    (failedRecord none (failMsg oracleImgFail) oracleImgFail.failTime).startedAt =
      none :=
  ⟨(failure_replaces_record cfgL oracleImgFail "j" none [] (by decide)).2.2.2.1,
   (failure_replaces_record cfgL oracleImgFail "j" none [] (by decide)).2.2.2.2.1⟩

end UAEAnthem
